import Mathlib

/-!
# Verification of the fast-react-pizza-co cart and order pipeline

Shallow embedding of the repository's core logic:

* the Redux cart slice (`cartSlice.js`, as documented in the repository's
  notes: `addItem`, `deleteItem`, `increaseItemQuantity`,
  `decreaseItemQuantity` — final form with auto-removal from the
  quantity-update chapter — `clearCart`, and the selectors);
* the phone validation regex and the `createOrderAction` submission pipeline
  (`features/order/CreateOrder.jsx` / error-handling chapter);
* the API service functions `createOrder` and `getOrder`
  (`services/apiRestaurant.js` as documented in the notes);
* JSON serialization of the cart payload (`JSON.stringify` on the hidden
  form field, `JSON.parse` in the action), modelled for the cart's shape.

JavaScript numbers in the cart are modelled as exact integers (`Int` /
`Nat`); all values occurring in the application are small integers.
A JavaScript `TypeError` crash (dereferencing the result of a failed
`Array.prototype.find`) is modelled as `Option.none`.
-/

namespace Pizza

/-- A cart line item (`CartItem` shape used throughout `cartSlice.js` and
the menu's `handleAddToCart`). -/
structure CartItem where
  pizzaId : Nat
  name : String
  quantity : Int
  unitPrice : Int
  totalPrice : Int
  deriving Repr, DecidableEq

/-- `addItem(state, action)`: `state.cart.push(action.payload)`. -/
def addItem (cart : List CartItem) (item : CartItem) : List CartItem :=
  cart ++ [item]

/-- `deleteItem(state, action)`:
`state.cart = state.cart.filter((item) => item.pizzaId !== action.payload)`. -/
def deleteItem (cart : List CartItem) (pizzaId : Nat) : List CartItem :=
  cart.filter (fun item => item.pizzaId ≠ pizzaId)

/-- Mutation of the item returned by `state.cart.find(...)`: the first
element whose `pizzaId` matches is replaced by `f` applied to it; everything
else is untouched (an Immer draft mutates that one element in place). -/
def updateFirstItem (pizzaId : Nat) (f : CartItem → CartItem) :
    List CartItem → List CartItem
  | [] => []
  | item :: rest =>
    if item.pizzaId = pizzaId then f item :: rest
    else item :: updateFirstItem pizzaId f rest

/-- The two mutations of `increaseItemQuantity` applied to the found item:
`item.quantity++; item.totalPrice = item.quantity * item.unitPrice;`
(the `totalPrice` assignment reads the already-incremented quantity). -/
def bumpUp (item : CartItem) : CartItem :=
  { item with
    quantity := item.quantity + 1
    totalPrice := (item.quantity + 1) * item.unitPrice }

/-- The two mutations of `decreaseItemQuantity` applied to the found item:
`item.quantity--; item.totalPrice = item.quantity * item.unitPrice;`. -/
def bumpDown (item : CartItem) : CartItem :=
  { item with
    quantity := item.quantity - 1
    totalPrice := (item.quantity - 1) * item.unitPrice }

/-- `increaseItemQuantity(state, action)`:
`const item = state.cart.find((item) => item.pizzaId === action.payload);
item.quantity++; item.totalPrice = item.quantity * item.unitPrice;`.
When `find` returns `undefined` the `item.quantity++` throws a `TypeError`,
modelled as `none`. -/
def increaseItemQuantity (cart : List CartItem) (pizzaId : Nat) :
    Option (List CartItem) :=
  match cart.find? (fun item => item.pizzaId == pizzaId) with
  | none => none
  | some _ => some (updateFirstItem pizzaId bumpUp cart)

/-- `decreaseItemQuantity(state, action)` (final form, quantity-update
chapter): decrement the found item's quantity, recompute its `totalPrice`,
and if the new quantity is `0` run the `deleteItem` case reducer on the
whole state (`cartSlice.caseReducers.deleteItem(state, action)`).
`find` returning `undefined` is a `TypeError`, modelled as `none`. -/
def decreaseItemQuantity (cart : List CartItem) (pizzaId : Nat) :
    Option (List CartItem) :=
  match cart.find? (fun item => item.pizzaId == pizzaId) with
  | none => none
  | some item =>
    let cart' := updateFirstItem pizzaId bumpDown cart
    some (if item.quantity - 1 = 0 then deleteItem cart' pizzaId else cart')

/-- `clearCart(state)`: `state.cart = []`. -/
def clearCart (_cart : List CartItem) : List CartItem := []

/-- `getTotalCartQuantity`:
`state.cart.cart.reduce((sum, item) => sum + item.quantity, 0)`. -/
def getTotalCartQuantity (cart : List CartItem) : Int :=
  cart.foldl (fun sum item => sum + item.quantity) 0

/-- `getTotalCartPrice`:
`state.cart.cart.reduce((sum, item) => sum + item.totalPrice, 0)`. -/
def getTotalCartPrice (cart : List CartItem) : Int :=
  cart.foldl (fun sum item => sum + item.totalPrice) 0

/-- A quantity-changing cart operation, as dispatched by the
`UpdateItemQuantity` component's "+" and "-" buttons. -/
inductive CartOp where
  | increase (pizzaId : Nat)
  | decrease (pizzaId : Nat)
  deriving Repr, DecidableEq

/-- Dispatch one quantity operation into the cart reducer. -/
def applyOp (cart : List CartItem) : CartOp → Option (List CartItem)
  | .increase pizzaId => increaseItemQuantity cart pizzaId
  | .decrease pizzaId => decreaseItemQuantity cart pizzaId

/-- Dispatch a sequence of quantity operations; a crash (`none`) aborts the
sequence. -/
def runOps (cart : List CartItem) : List CartOp → Option (List CartItem)
  | [] => some cart
  | op :: ops => (applyOp cart op).bind (fun cart' => runOps cart' ops)

/-- The derived-field invariant of the data model:
`totalPrice = quantity * unitPrice` for every item in the cart. -/
def priceInv (cart : List CartItem) : Prop :=
  ∀ item ∈ cart, item.totalPrice = item.quantity * item.unitPrice

instance (cart : List CartItem) : Decidable (priceInv cart) := by
  unfold priceInv; infer_instance

/-- All quantities in the cart are at least 1 (cart items are created with
`quantity: 1` and a quantity that would reach 0 triggers removal). -/
def quantityPos (cart : List CartItem) : Prop :=
  ∀ item ∈ cart, 1 ≤ item.quantity

instance (cart : List CartItem) : Decidable (quantityPos cart) := by
  unfold quantityPos; infer_instance

/-- The concrete two-item cart used to witness the frame theorem. -/
def twoItemCart : List CartItem :=
  [⟨12, "Mediterranean", 2, 16, 32⟩, ⟨6, "Vegetale", 1, 13, 13⟩]

/-- A regular-expression fragment: a single character from a class, a
sequence, an optional piece (`?`), or a bounded repetition of a character
class (`{lo,hi}`). -/
inductive RE where
  | cls (p : Char → Bool)
  | seq (a b : RE)
  | opt (a : RE)
  | rep (p : Char → Bool) (lo hi : Nat)

/-- Matcher for bounded repetition of a character class: succeed on the
continuation `k` anywhere between `lo` and `hi` consumed characters. -/
def repMatch (p : Char → Bool) : Nat → Nat → List Char → (List Char → Bool) → Bool
  | lo, 0, cs, k => decide (lo = 0) && k cs
  | lo, hi + 1, cs, k =>
    (decide (lo = 0) && k cs) ||
      match cs with
      | [] => false
      | c :: cs' => p c && repMatch p (lo - 1) hi cs' k

/-- Backtracking regex matcher in continuation-passing style: `reMatch r cs
k` is true when some prefix of `cs` matches `r` and `k` accepts the rest. -/
def reMatch : RE → List Char → (List Char → Bool) → Bool
  | .cls _, [], _ => false
  | .cls p, c :: cs, k => p c && k cs
  | .seq a b, cs, k => reMatch a cs (fun rest => reMatch b rest k)
  | .opt a, cs, k => k cs || reMatch a cs k
  | .rep p lo hi, cs, k => repMatch p lo hi cs k

/-- `\d` — the ASCII digits. -/
def isDigitClass (c : Char) : Bool := c.isDigit

/-- `[-.\s]` — dash, dot or whitespace (the JavaScript `\s` core set). -/
def isSepClass (c : Char) : Bool :=
  c = '-' || c = '.' || c = ' ' || c = '\t' || c = '\n' || c = '\r' ||
    c = Char.ofNat 11 || c = Char.ofNat 12

/-- The phone regex
`\+?\d{1,4}?[-.\s]?\(?\d{1,3}?\)?[-.\s]?\d{1,4}[-.\s]?\d{1,4}[-.\s]?\d{1,9}`,
group by group. -/
def phoneRE : RE :=
  .seq (.opt (.cls (fun c => c = '+')))
    (.seq (.rep isDigitClass 1 4)
      (.seq (.opt (.cls isSepClass))
        (.seq (.opt (.cls (fun c => c = '(')))
          (.seq (.rep isDigitClass 1 3)
            (.seq (.opt (.cls (fun c => c = ')')))
              (.seq (.opt (.cls isSepClass))
                (.seq (.rep isDigitClass 1 4)
                  (.seq (.opt (.cls isSepClass))
                    (.seq (.rep isDigitClass 1 4)
                      (.seq (.opt (.cls isSepClass))
                        (.rep isDigitClass 1 9)))))))))))

/-- `isValidPhone(str)`: the anchored regex accepts the whole string. -/
def isValidPhone (str : String) : Bool :=
  reMatch phoneRE str.toList (fun rest => rest.isEmpty)

/-- The decimal digit character for `d < 10`. -/
def digitChar (d : Nat) : Char := Char.ofNat (48 + d)

/-- Lowercase hex digit character for `d < 16` (as in `JSON.stringify`'s
`\u00xx` escapes). -/
def hexDigitChar (d : Nat) : Char :=
  if d < 10 then Char.ofNat (48 + d) else Char.ofNat (87 + d)

/-- Decimal notation, most significant digit first; the fuel only bounds
the recursion depth (any fuel exceeding the value is enough). -/
def natToCharsAux : Nat → Nat → List Char
  | 0, _ => []
  | fuel + 1, n =>
    if n < 10 then [digitChar n]
    else natToCharsAux fuel (n / 10) ++ [digitChar (n % 10)]

/-- Decimal notation of a natural number, most significant digit first. -/
def natToChars (n : Nat) : List Char := natToCharsAux (n + 1) n

/-- Decimal notation of an integer (`JSON.stringify` of an integral JS
number). -/
def intToChars (i : Int) : List Char :=
  if i < 0 then '-' :: natToChars i.natAbs else natToChars i.natAbs

/-- `JSON.stringify`'s escaping of one string character: `\"`, `\\`, the
named control escapes `\b \t \n \f \r`, `\u00xx` for the remaining control
characters, and every other character unchanged. -/
def escapeChar (c : Char) : List Char :=
  if c = '"' then ['\\', '"']
  else if c = '\\' then ['\\', '\\']
  else if c.toNat = 8 then ['\\', 'b']
  else if c.toNat = 9 then ['\\', 't']
  else if c.toNat = 10 then ['\\', 'n']
  else if c.toNat = 12 then ['\\', 'f']
  else if c.toNat = 13 then ['\\', 'r']
  else if c.toNat < 32 then
    ['\\', 'u', '0', '0', hexDigitChar (c.toNat / 16), hexDigitChar (c.toNat % 16)]
  else [c]

/-- `JSON.stringify` of a string: quoted, characters escaped. -/
def stringToChars (s : String) : List Char :=
  '"' :: (s.data.flatMap escapeChar ++ ['"'])

/-- `JSON.stringify` of one cart item: the five fields in insertion order,
as produced by the menu's `handleAddToCart` object literal. -/
def serializeItemChars (item : CartItem) : List Char :=
  '{' :: (stringToChars "pizzaId" ++ ':' :: natToChars item.pizzaId ++
    ',' :: stringToChars "name" ++ ':' :: stringToChars item.name ++
    ',' :: stringToChars "quantity" ++ ':' :: intToChars item.quantity ++
    ',' :: stringToChars "unitPrice" ++ ':' :: intToChars item.unitPrice ++
    ',' :: stringToChars "totalPrice" ++ ':' :: intToChars item.totalPrice ++
    ['}'])

/-- The comma-separated item list inside the array brackets. -/
def serializeItemsChars : List CartItem → List Char
  | [] => []
  | [item] => serializeItemChars item
  | item :: rest => serializeItemChars item ++ ',' :: serializeItemsChars rest

/-- `JSON.stringify(cart)` — the value of the hidden `cart` form field. -/
def serializeCart (cart : List CartItem) : String :=
  String.mk ('[' :: serializeItemsChars cart ++ [']'])

/-- Digit-run consumer of the number parser: accumulate decimal digits
until a non-digit (or the end) is reached. -/
def parseDigits (acc : Nat) : List Char → Nat × List Char
  | [] => (acc, [])
  | c :: cs =>
    if c.isDigit then parseDigits (acc * 10 + (c.toNat - 48)) cs
    else (acc, c :: cs)

/-- Parse a JSON natural number (at least one digit). -/
def parseNat : List Char → Option (Nat × List Char)
  | [] => none
  | c :: cs => if c.isDigit then some (parseDigits 0 (c :: cs)) else none

/-- Parse a JSON integer: optional minus sign, then digits.  (The documents
produced by the model's serializer contain only integral numbers.) -/
def parseInt : List Char → Option (Int × List Char)
  | [] => none
  | c :: cs =>
    if c = '-' then (parseNat cs).map (fun p => (-(p.1 : Int), p.2))
    else (parseNat (c :: cs)).map (fun p => ((p.1 : Int), p.2))

/-- Value of a hex digit character, accepting both cases as `JSON.parse`
does. -/
def hexVal (c : Char) : Option Nat :=
  if 48 ≤ c.toNat ∧ c.toNat ≤ 57 then some (c.toNat - 48)
  else if 97 ≤ c.toNat ∧ c.toNat ≤ 102 then some (c.toNat - 87)
  else if 65 ≤ c.toNat ∧ c.toNat ≤ 70 then some (c.toNat - 55)
  else none

/-- Value of a single-character escape (`\" \\ \/ \b \f \n \r \t`). -/
def escCharValue (e : Char) : Option Char :=
  if e = '"' then some '"'
  else if e = '\\' then some '\\'
  else if e = '/' then some '/'
  else if e = 'b' then some (Char.ofNat 8)
  else if e = 'f' then some (Char.ofNat 12)
  else if e = 'n' then some (Char.ofNat 10)
  else if e = 'r' then some (Char.ofNat 13)
  else if e = 't' then some (Char.ofNat 9)
  else none

/-- Read four hex digits and return their value. -/
def parseHex4 : List Char → Option (Nat × List Char)
  | h1 :: h2 :: h3 :: h4 :: cs =>
    match hexVal h1, hexVal h2, hexVal h3, hexVal h4 with
    | some a, some b, some c, some d => some (((a * 16 + b) * 16 + c) * 16 + d, cs)
    | _, _, _, _ => none
  | _ => none

/-- Decode the escape following a backslash: either `\uXXXX` (rejected when
it denotes a UTF-16 surrogate, which has no counterpart in the model's
unicode-scalar strings) or a single-character escape. -/
def parseEsc : List Char → Option (Char × List Char)
  | [] => none
  | e :: cs =>
    if e = 'u' then
      match parseHex4 cs with
      | some p => if p.1.isValidChar then some (Char.ofNat p.1, p.2) else none
      | none => none
    else (escCharValue e).map (fun ec => (ec, cs))

/-- Parse the body of a JSON string up to the closing quote, undoing
escapes.  Each step consumes at least one input character, so running with
the input's length as fuel is exhaustive. -/
def parseStringBodyAux : Nat → List Char → Option (List Char × List Char)
  | 0, _ => none
  | _ + 1, [] => none
  | fuel + 1, c :: cs =>
    if c = '"' then some ([], cs)
    else if c = '\\' then
      match parseEsc cs with
      | some p => (parseStringBodyAux fuel p.2).map (fun q => (p.1 :: q.1, q.2))
      | none => none
    else (parseStringBodyAux fuel cs).map (fun q => (c :: q.1, q.2))

/-- Parse a JSON string literal. -/
def parseJString : List Char → Option (String × List Char)
  | [] => none
  | c :: cs =>
    if c = '"' then
      (parseStringBodyAux cs.length cs).map (fun p => (String.mk p.1, p.2))
    else none

/-- Consume one expected character. -/
def expectChar (c : Char) : List Char → Option (List Char)
  | c' :: cs => if c' = c then some cs else none
  | [] => none

/-- Consume an object key and its colon. -/
def parseKeyColon (key : String) (cs : List Char) : Option (List Char) :=
  match parseJString cs with
  | some (k, rest) => if k = key then expectChar ':' rest else none
  | none => none

/-- Consume a quoted key, a colon, and a natural-number value. -/
def parseNatField (key : String) (cs : List Char) : Option (Nat × List Char) :=
  (parseKeyColon key cs).bind parseNat

/-- Consume a quoted key, a colon, and an integer value. -/
def parseIntField (key : String) (cs : List Char) : Option (Int × List Char) :=
  (parseKeyColon key cs).bind parseInt

/-- Consume a quoted key, a colon, and a string value. -/
def parseStringField (key : String) (cs : List Char) : Option (String × List Char) :=
  (parseKeyColon key cs).bind parseJString

/-- Parse the opening brace and the `pizzaId` and `name` fields of a
cart-item object. -/
def parseItemHead (cs0 : List Char) : Option ((Nat × String) × List Char) :=
  (expectChar '{' cs0).bind fun cs1 =>
  (parseNatField "pizzaId" cs1).bind fun p1 =>
  (expectChar ',' p1.2).bind fun cs2 =>
  (parseStringField "name" cs2).map fun p2 =>
  ((p1.1, p2.1), p2.2)

/-- Parse the `quantity`, `unitPrice` and `totalPrice` fields and the
closing brace of a cart-item object. -/
def parseItemTail (cs0 : List Char) : Option ((Int × Int × Int) × List Char) :=
  (expectChar ',' cs0).bind fun cs1 =>
  (parseIntField "quantity" cs1).bind fun p3 =>
  (expectChar ',' p3.2).bind fun cs2 =>
  (parseIntField "unitPrice" cs2).bind fun p4 =>
  (expectChar ',' p4.2).bind fun cs3 =>
  (parseIntField "totalPrice" cs3).bind fun p5 =>
  (expectChar '}' p5.2).map fun cs4 =>
  ((p3.1, p4.1, p5.1), cs4)

/-- Parse one cart-item object with the serializer's field layout. -/
def parseItem (cs0 : List Char) : Option (CartItem × List Char) :=
  (parseItemHead cs0).bind fun pa =>
  (parseItemTail pa.2).map fun pb =>
  (⟨pa.1.1, pa.1.2, pb.1.1, pb.1.2.1, pb.1.2.2⟩, pb.2)

/-- Parse a comma-separated run of cart items; the fuel bounds the number
of items (each item consumes at least one character, so the input length is
always enough fuel). -/
def parseItemsAux : Nat → List Char → Option (List CartItem × List Char)
  | 0, _ => none
  | fuel + 1, cs =>
    (parseItem cs).bind fun p =>
      match p.2 with
      | [] => some ([p.1], [])
      | c :: cs' =>
        if c = ',' then (parseItemsAux fuel cs').map (fun q => (p.1 :: q.1, q.2))
        else some ([p.1], c :: cs')

/-- `JSON.parse(data.cart)` for the cart payload: a whole-input JSON array
of cart-item objects. -/
def parseCart (s : String) : Option (List CartItem) :=
  match s.data with
  | [] => none
  | c :: cs =>
    if c = '[' then
      match cs with
      | [] => none
      | c2 :: cs2 =>
        if c2 = ']' then (if cs2 = [] then some [] else none)
        else
          (parseItemsAux cs.length cs).bind fun p =>
            if p.2 = [']'] then some p.1 else none
    else none

/-- The remaining input does not start with a digit (so a digit run stops
exactly there). -/
def noDigitHead : List Char → Prop
  | [] => True
  | c :: _ => c.isDigit = false

instance : (cs : List Char) → Decidable (noDigitHead cs)
  | [] => isTrue trivial
  | c :: _ => inferInstanceAs (Decidable (c.isDigit = false))

/-- An order record as returned by the restaurant API (`{ data: Order }`):
server-confirmed fields, no customer name/address. -/
structure OrderRecord where
  id : String
  status : String
  priority : Bool
  priorityPrice : Int
  orderPrice : Int
  estimatedDelivery : String
  cart : List CartItem
  deriving Repr, DecidableEq

/-- Outcome of one `fetch` exchange, abstracting the network environment:
the promise resolves with a response (`ok` with the payload, or a
non-success HTTP status), or rejects (network failure). -/
inductive FetchOutcome where
  | ok (data : OrderRecord)
  | httpError (status : Nat)
  | networkFailure
  deriving Repr, DecidableEq

/-- A thrown JavaScript error as observed by the caller of a service
function: an `Error` with a message, or the `fetch` rejection itself. -/
inductive JsError where
  | message (msg : String)
  | fetchFailure
  deriving Repr, DecidableEq

/-- The submission payload assembled by `createOrderAction`
(`{ ...data, cart: JSON.parse(data.cart), priority: data.priority === "on" }`). -/
structure Order where
  customer : String
  phone : String
  address : String
  cart : List CartItem
  priority : Bool
  deriving Repr, DecidableEq

/-- `createOrder(newOrder)` (`services/apiRestaurant.js`): POST the order;
`if (!res.ok) throw Error();` then return the response's `data`.  The
surrounding `try { … } catch` turns every failure — non-ok status, fetch
rejection, malformed body — into `throw Error("Failed creating your
order")`.  The HTTP exchange itself is abstracted by the environment's
`FetchOutcome`. -/
def createOrder (resp : FetchOutcome) (_newOrder : Order) : Except String OrderRecord :=
  match resp with
  | .ok data => .ok data
  | .httpError _ => .error "Failed creating your order"
  | .networkFailure => .error "Failed creating your order"

/-- `getOrder(id)` (`services/apiRestaurant.js`): GET the order;
`if (!res.ok) throw Error(`Couldn't find order #${id}`);` then return the
response's `data`.  There is no `try/catch`: a rejected `fetch` (network
failure) propagates as the fetch error itself, distinct from the
not-found `Error`. -/
def getOrder (resp : FetchOutcome) (id : String) : Except JsError OrderRecord :=
  match resp with
  | .ok data => .ok data
  | .httpError _ => .error (.message ("Couldn't find order #" ++ id))
  | .networkFailure => .error .fetchFailure

/-- The submitted form fields, after `Object.fromEntries(formData)`: the
text inputs, the hidden serialized `cart`, and the `priority` checkbox
(present with value `"on"` when checked, absent otherwise). -/
structure FormData where
  customer : String
  phone : String
  address : String
  cart : String
  priority : Option String
  deriving Repr, DecidableEq

/-- The result `createOrderAction` hands back to the router: the returned
field-error object (rendered next to the fields via `useActionData`), a
propagated thrown error (caught by the route's error boundary), or the
returned `redirect`. -/
inductive ActionResult where
  | validationErrors (errors : List (String × String))
  | apiError (msg : String)
  | redirect (target : String)
  deriving Repr, DecidableEq

/-- The message stored in `errors.phone` by the action's guard. -/
def phoneErrorMessage : String :=
  "Please give us your correct phone number. We might need it to contact you"

/-- The `order` object built by `createOrderAction`:
`{ ...data, cart: JSON.parse(data.cart), priority: data.priority === "on" }`. -/
def assembleOrder (data : FormData) (items : List CartItem) : Order :=
  { customer := data.customer
    phone := data.phone
    address := data.address
    cart := items
    priority := data.priority == some "on" }

/-- `createOrderAction({ request })` (error-handling chapter, final form):
parse the hidden cart (a `JSON.parse` throw on a malformed field is a
caller bug and crashes the action: `none`), assemble the order, run the
guard (`errors = {}`; `if (!isValidPhone(order.phone)) errors.phone = …`;
`if (Object.keys(errors).length > 0) return errors;` — with the single
check this is exactly an if/else on the phone test), then
`await createOrder(order)` and `redirect(`/order/${newOrder.id}`)`; a
throw from `createOrder` propagates out of the action. -/
def createOrderAction (resp : FetchOutcome) (data : FormData) : Option ActionResult :=
  match parseCart data.cart with
  | none => none
  | some items =>
    let order := assembleOrder data items
    if isValidPhone order.phone then
      match createOrder resp order with
      | .ok newOrder => some (.redirect ("/order/" ++ newOrder.id))
      | .error e => some (.apiError e)
    else some (.validationErrors [("phone", phoneErrorMessage)])

/-- The development cart hardcoded in `CreateOrder.jsx`. -/
def fakeCart : List CartItem :=
  [⟨12, "Mediterranean", 2, 16, 32⟩,
   ⟨6, "Vegetale", 1, 13, 13⟩,
   ⟨11, "Spinach and Mushroom", 1, 15, 15⟩]

/-- The value of the hidden `cart` input rendered by `CreateOrder`
(`const cart = fakeCart;` … `value={JSON.stringify(cart)}`): the component
never selects the Redux store's cart (its only `useSelector` reads the
username), so the store's cart — the argument — is ignored. -/
def createOrderHiddenCartField (_storeCart : List CartItem) : String :=
  serializeCart fakeCart

/-- Actions of the cart slice, as dispatched into the Redux store. -/
inductive CartAction where
  | addItem (item : CartItem)
  | deleteItem (pizzaId : Nat)
  | increaseItemQuantity (pizzaId : Nat)
  | decreaseItemQuantity (pizzaId : Nat)
  | clearCart
  deriving Repr, DecidableEq

/-- The cart slice reducer, dispatching one action into the store. -/
def cartReducer (cart : List CartItem) : CartAction → Option (List CartItem)
  | .addItem item => some (addItem cart item)
  | .deleteItem pizzaId => some (deleteItem cart pizzaId)
  | .increaseItemQuantity pizzaId => increaseItemQuantity cart pizzaId
  | .decreaseItemQuantity pizzaId => decreaseItemQuantity cart pizzaId
  | .clearCart => some (clearCart cart)

/-- Cart actions dispatched into the store by `createOrderAction`: none.
The action's body only reads the form data, validates, calls the API and
returns a value to the router; it contains no `dispatch` call (in
particular it never dispatches `clearCart`). -/
def createOrderActionDispatches (_resp : FetchOutcome) (_data : FormData) :
    List CartAction := []

/-- Fold a dispatch list over the store's cart slice. -/
def dispatchAll (cart : List CartItem) : List CartAction → Option (List CartItem)
  | [] => some cart
  | a :: rest => (cartReducer cart a).bind (fun cart' => dispatchAll cart' rest)

/-- The store's cart slice after `createOrderAction` has run. -/
def cartAfterSubmission (storeCart : List CartItem) (resp : FetchOutcome)
    (data : FormData) : Option (List CartItem) :=
  dispatchAll storeCart (createOrderActionDispatches resp data)

/-- The form data of the concrete submission used in the witnesses: the
fake cart serialized into the hidden field, priority unchecked. -/
def witnessForm (phone : String) : FormData :=
  ⟨"Ana", phone, "1 Main St", serializeCart fakeCart, none⟩

/-- The server's reply used in the witnesses. -/
def ord1 : OrderRecord := ⟨"ORD-1", "preparing", false, 0, 32, "", []⟩

/-! ### Theorems: cart operations, serialization round trip, pipeline -/

theorem mem_deleteItem {j : CartItem} {cart : List CartItem} {pizzaId : Nat}
    (h : j ∈ deleteItem cart pizzaId) : j ∈ cart ∧ j.pizzaId ≠ pizzaId := by
  unfold deleteItem at h
  have := List.of_mem_filter h
  exact ⟨List.mem_of_mem_filter h, by simpa using this⟩

theorem not_mem_pid_deleteItem {j : CartItem} {cart : List CartItem} {pizzaId : Nat}
    (h : j ∈ cart) (hne : j.pizzaId ≠ pizzaId) : j ∈ deleteItem cart pizzaId := by
  unfold deleteItem
  exact List.mem_filter_of_mem h (by simpa using hne)

/-- When `find` locates an item, mutating it in place (`updateFirstItem`)
is exactly `List.set` at the found index. -/
theorem updateFirstItem_eq_set {pizzaId : Nat}
    {cart : List CartItem} {item : CartItem}
    (hfind : cart.find? (fun it => it.pizzaId == pizzaId) = some item) :
    ∃ k : Fin cart.length,
      cart.get k = item ∧ item.pizzaId = pizzaId ∧
      ∀ f : CartItem → CartItem,
        updateFirstItem pizzaId f cart = cart.set k.val (f item) := by
  induction cart with
  | nil => exact absurd hfind (by simp)
  | cons a rest ih =>
    by_cases ha : a.pizzaId = pizzaId
    · rw [List.find?_cons_of_pos _ (by simpa using ha)] at hfind
      injection hfind with hfind
      subst hfind
      exact ⟨⟨0, by simp⟩, rfl, ha, fun f => by simp [updateFirstItem, ha]⟩
    · rw [List.find?_cons_of_neg _ (by simpa using ha)] at hfind
      obtain ⟨k, hget, hpid, hset⟩ := ih hfind
      refine ⟨⟨k.val + 1, by simp [k.isLt]⟩, by simpa using hget, hpid, fun f => ?_⟩
      simp [updateFirstItem, ha, hset f]

/-- In a cart with unique `pizzaId`s, `find` returns exactly the member
carrying the searched `pizzaId`. -/
theorem find?_eq_of_nodup {cart : List CartItem} {item : CartItem} {pizzaId : Nat}
    (hnodup : (cart.map CartItem.pizzaId).Nodup) (hmem : item ∈ cart)
    (hpid : item.pizzaId = pizzaId) :
    cart.find? (fun it => it.pizzaId == pizzaId) = some item := by
  have hsome : (cart.find? (fun it => it.pizzaId == pizzaId)).isSome :=
    List.find?_isSome.mpr ⟨item, hmem, by simp [hpid]⟩
  obtain ⟨item₀, hfind⟩ := Option.isSome_iff_exists.mp hsome
  have hmem₀ : item₀ ∈ cart := List.mem_of_find?_eq_some hfind
  have hpid₀ : item₀.pizzaId = pizzaId := by
    have := List.find?_some hfind
    simpa using this
  have heq : item₀ = item :=
    List.inj_on_of_nodup_map hnodup hmem₀ hmem (hpid₀.trans hpid.symm)
  rw [hfind, heq]

/-- Every member of the cart after `increaseItemQuantity` is either an
untouched old member or the recomputed found item. -/
theorem mem_increase {cart cart' : List CartItem} {pizzaId : Nat}
    (h : increaseItemQuantity cart pizzaId = some cart') :
    ∃ item, cart.find? (fun it => it.pizzaId == pizzaId) = some item ∧
      ∀ j ∈ cart', j ∈ cart ∨ j = bumpUp item := by
  unfold increaseItemQuantity at h
  cases hfind : cart.find? (fun it => it.pizzaId == pizzaId) with
  | none => rw [hfind] at h; exact absurd h (by simp)
  | some item =>
    rw [hfind] at h
    injection h with h
    subst h
    obtain ⟨k, _, _, hsetf⟩ := updateFirstItem_eq_set hfind
    have hset := hsetf bumpUp
    refine ⟨item, rfl, fun j hj => ?_⟩
    rw [hset] at hj
    exact List.mem_or_eq_of_mem_set hj

/-- Every member of the cart after `decreaseItemQuantity` is either an
untouched old member or the recomputed found item; and when the found
item's quantity reached `0`, no member carries its `pizzaId` any more. -/
theorem mem_decrease {cart cart' : List CartItem} {pizzaId : Nat}
    (h : decreaseItemQuantity cart pizzaId = some cart') :
    ∃ item, cart.find? (fun it => it.pizzaId == pizzaId) = some item ∧
      (∀ j ∈ cart', j ∈ cart ∨ j = bumpDown item) ∧
      (item.quantity - 1 = 0 → ∀ j ∈ cart', j.pizzaId ≠ pizzaId) := by
  unfold decreaseItemQuantity at h
  cases hfind : cart.find? (fun it => it.pizzaId == pizzaId) with
  | none => rw [hfind] at h; exact absurd h (by simp)
  | some item =>
    rw [hfind] at h
    injection h with h
    subst h
    obtain ⟨k, _, _, hsetf⟩ := updateFirstItem_eq_set hfind
    have hset := hsetf bumpDown
    refine ⟨item, rfl, fun j hj => ?_, fun hq j hj => ?_⟩
    · have hj' : j ∈ updateFirstItem pizzaId bumpDown cart := by
        by_cases hq : item.quantity - 1 = 0
        · rw [if_pos hq] at hj
          exact (mem_deleteItem hj).1
        · rwa [if_neg hq] at hj
      rw [hset] at hj'
      exact List.mem_or_eq_of_mem_set hj'
    · rw [if_pos hq] at hj
      exact (mem_deleteItem hj).2

theorem bumpUp_price (item : CartItem) :
    (bumpUp item).totalPrice = (bumpUp item).quantity * (bumpUp item).unitPrice := rfl

theorem bumpDown_price (item : CartItem) :
    (bumpDown item).totalPrice = (bumpDown item).quantity * (bumpDown item).unitPrice := rfl

theorem priceInv_applyOp {cart cart' : List CartItem} {op : CartOp}
    (hinv : priceInv cart) (h : applyOp cart op = some cart') : priceInv cart' := by
  cases op with
  | increase pizzaId =>
    obtain ⟨item, _, hmem⟩ := mem_increase h
    intro j hj
    rcases hmem j hj with hc | rfl
    · exact hinv j hc
    · exact bumpUp_price item
  | decrease pizzaId =>
    obtain ⟨item, _, hmem, _⟩ := mem_decrease h
    intro j hj
    rcases hmem j hj with hc | rfl
    · exact hinv j hc
    · exact bumpDown_price item

theorem quantityPos_applyOp {cart cart' : List CartItem} {op : CartOp}
    (hpos : quantityPos cart) (h : applyOp cart op = some cart') :
    quantityPos cart' := by
  cases op with
  | increase pizzaId =>
    obtain ⟨item, hfind, hmem⟩ := mem_increase h
    have hitem : 1 ≤ item.quantity := hpos item (List.mem_of_find?_eq_some hfind)
    intro j hj
    rcases hmem j hj with hc | rfl
    · exact hpos j hc
    · show 1 ≤ item.quantity + 1
      omega
  | decrease pizzaId =>
    obtain ⟨item, hfind, hmem, hdel⟩ := mem_decrease h
    have hitem : 1 ≤ item.quantity := hpos item (List.mem_of_find?_eq_some hfind)
    have hpid : item.pizzaId = pizzaId := by
      have := List.find?_some hfind
      simpa using this
    intro j hj
    by_cases hq : item.quantity - 1 = 0
    · rcases hmem j hj with hc | rfl
      · exact hpos j hc
      · exact absurd hpid (hdel hq (bumpDown item) hj)
    · rcases hmem j hj with hc | rfl
      · exact hpos j hc
      · show 1 ≤ item.quantity - 1
        omega

theorem priceInv_runOps {cart cart' : List CartItem} {ops : List CartOp}
    (hinv : priceInv cart) (hrun : runOps cart ops = some cart') : priceInv cart' := by
  induction ops generalizing cart with
  | nil =>
    injection hrun with hrun
    exact hrun ▸ hinv
  | cons op ops ih =>
    unfold runOps at hrun
    cases happly : applyOp cart op with
    | none => rw [happly] at hrun; exact absurd hrun (by simp)
    | some cart₁ =>
      rw [happly] at hrun
      exact ih (priceInv_applyOp hinv happly) hrun

theorem quantityPos_runOps {cart cart' : List CartItem} {ops : List CartOp}
    (hpos : quantityPos cart) (hrun : runOps cart ops = some cart') :
    quantityPos cart' := by
  induction ops generalizing cart with
  | nil =>
    injection hrun with hrun
    exact hrun ▸ hpos
  | cons op ops ih =>
    unfold runOps at hrun
    cases happly : applyOp cart op with
    | none => rw [happly] at hrun; exact absurd hrun (by simp)
    | some cart₁ =>
      rw [happly] at hrun
      exact ih (quantityPos_applyOp hpos happly) hrun

/-- C1: for every cart satisfying the quantity-price invariant and every
sequence of `increaseItemQuantity`/`decreaseItemQuantity` operations
applied to it, after each operation (i.e. after every prefix of the
sequence that does not crash) every item still present in the cart
satisfies `totalPrice = quantity * unitPrice`: the derived `totalPrice`
field is recomputed on every quantity change and never left stale. -/
theorem quantity_price_invariant (cart : List CartItem) (ops : List CartOp)
    (cart' : List CartItem) (hinv : priceInv cart)
    (hrun : runOps cart ops = some cart') :
    priceInv cart' :=
  priceInv_runOps hinv hrun

/-- Witness for C1 at a concrete input: the cart holding two Mediterranean
pizzas at 16 each, after an increase and a decrease of item 12. -/
theorem quantity_price_invariant_witness :
    priceInv [⟨12, "Mediterranean", 2, 16, 32⟩] ∧
    runOps [⟨12, "Mediterranean", 2, 16, 32⟩]
      [CartOp.increase 12, CartOp.decrease 12]
      = some [⟨12, "Mediterranean", 2, 16, 32⟩] ∧
    priceInv [⟨12, "Mediterranean", 2, 16, 32⟩] :=
  ⟨by decide, by decide,
   quantity_price_invariant [⟨12, "Mediterranean", 2, 16, 32⟩]
     [CartOp.increase 12, CartOp.decrease 12]
     [⟨12, "Mediterranean", 2, 16, 32⟩] (by decide) (by decide)⟩

/-- C2: a cart item whose `pizzaId`s are unique and whose quantity is
exactly 1 is removed from the cart by `decreaseItemQuantity` (which
delegates to the `deleteItem` case reducer when the decremented quantity
hits 0); consequently, along any crash-free sequence of
increase/decrease operations starting from a cart with positive
quantities, the cart never contains an item with quantity 0 and no item's
quantity ever becomes negative. -/
theorem decrease_auto_removal :
    (∀ (cart : List CartItem) (pizzaId : Nat) (item : CartItem),
      (cart.map CartItem.pizzaId).Nodup → item ∈ cart →
      item.pizzaId = pizzaId → item.quantity = 1 →
      ∃ cart', decreaseItemQuantity cart pizzaId = some cart' ∧
        ∀ j ∈ cart', j.pizzaId ≠ pizzaId) ∧
    (∀ (cart cart' : List CartItem) (ops : List CartOp),
      quantityPos cart → runOps cart ops = some cart' →
      ∀ j ∈ cart', 1 ≤ j.quantity ∧ j.quantity ≠ 0) := by
  constructor
  · intro cart pizzaId item hnodup hmem hpid hq
    have hsome : (cart.find? (fun it => it.pizzaId == pizzaId)).isSome :=
      List.find?_isSome.mpr ⟨item, hmem, by simp [hpid]⟩
    obtain ⟨item₀, hfind⟩ := Option.isSome_iff_exists.mp hsome
    have hmem₀ : item₀ ∈ cart := List.mem_of_find?_eq_some hfind
    have hpid₀ : item₀.pizzaId = pizzaId := by
      have := List.find?_some hfind
      simpa using this
    have heq : item₀ = item :=
      List.inj_on_of_nodup_map hnodup hmem₀ hmem (hpid₀.trans hpid.symm)
    have hq₀ : item₀.quantity - 1 = 0 := by rw [heq, hq]; decide
    refine ⟨deleteItem (updateFirstItem pizzaId bumpDown cart) pizzaId, ?_, ?_⟩
    · unfold decreaseItemQuantity
      rw [hfind]
      simp [hq₀]
    · intro j hj
      exact (mem_deleteItem hj).2
  · intro cart cart' ops hpos hrun j hj
    have := quantityPos_runOps hpos hrun j hj
    exact ⟨this, by omega⟩

/-- Witness for C2 at concrete inputs: decreasing the single-quantity
Mediterranean removes it; a concrete increase run keeps quantities
positive. -/
theorem decrease_auto_removal_witness :
    (∃ cart', decreaseItemQuantity [⟨12, "Mediterranean", 1, 16, 16⟩] 12 = some cart' ∧
      ∀ j ∈ cart', j.pizzaId ≠ 12) ∧
    (∀ j ∈ [(⟨6, "Vegetale", 2, 13, 26⟩ : CartItem)], 1 ≤ j.quantity ∧ j.quantity ≠ 0) :=
  ⟨decrease_auto_removal.1 [⟨12, "Mediterranean", 1, 16, 16⟩] 12
      ⟨12, "Mediterranean", 1, 16, 16⟩ (by decide) (by decide) (by decide) (by decide),
   decrease_auto_removal.2 [⟨6, "Vegetale", 1, 13, 13⟩] [⟨6, "Vegetale", 2, 13, 26⟩]
      [CartOp.increase 6] (by decide) (by decide)⟩

/-- C9: the quantity operations require the target `pizzaId` to be present:
when some item carries it the lookup succeeds and the missing-item branch
is unreachable (the result is `some`), while for an absent `pizzaId` the
unguarded code dereferences the `undefined` returned by `find` — a
`TypeError` crash, modelled as `none`: neither a no-op (`some cart`) nor a
reported not-found condition. -/
theorem quantity_ops_require_presence :
    ∀ (cart : List CartItem) (pizzaId : Nat),
      ((∃ item ∈ cart, item.pizzaId = pizzaId) →
        (increaseItemQuantity cart pizzaId).isSome ∧
        (decreaseItemQuantity cart pizzaId).isSome) ∧
      ((¬∃ item ∈ cart, item.pizzaId = pizzaId) →
        increaseItemQuantity cart pizzaId = none ∧
        decreaseItemQuantity cart pizzaId = none ∧
        increaseItemQuantity cart pizzaId ≠ some cart ∧
        decreaseItemQuantity cart pizzaId ≠ some cart) := by
  intro cart pizzaId
  constructor
  · intro ⟨item, hmem, hpid⟩
    have hsome : (cart.find? (fun it => it.pizzaId == pizzaId)).isSome :=
      List.find?_isSome.mpr ⟨item, hmem, by simp [hpid]⟩
    obtain ⟨item₀, hfind⟩ := Option.isSome_iff_exists.mp hsome
    constructor
    · unfold increaseItemQuantity
      rw [hfind]
      rfl
    · unfold decreaseItemQuantity
      rw [hfind]
      rfl
  · intro habs
    have hfind : cart.find? (fun it => it.pizzaId == pizzaId) = none := by
      rw [List.find?_eq_none]
      intro x hx
      simp only [beq_iff_eq]
      exact fun hpid => habs ⟨x, hx, hpid⟩
    have hinc : increaseItemQuantity cart pizzaId = none := by
      unfold increaseItemQuantity
      rw [hfind]
    have hdec : decreaseItemQuantity cart pizzaId = none := by
      unfold decreaseItemQuantity
      rw [hfind]
    exact ⟨hinc, hdec, by simp [hinc], by simp [hdec]⟩

/-- Witness for C9 at concrete inputs: pizza 12 present, pizza 99 absent. -/
theorem quantity_ops_require_presence_witness :
    ((increaseItemQuantity [⟨12, "Mediterranean", 2, 16, 32⟩] 12).isSome ∧
      (decreaseItemQuantity [⟨12, "Mediterranean", 2, 16, 32⟩] 12).isSome) ∧
    (increaseItemQuantity [⟨12, "Mediterranean", 2, 16, 32⟩] 99 = none ∧
      decreaseItemQuantity [⟨12, "Mediterranean", 2, 16, 32⟩] 99 = none ∧
      increaseItemQuantity [⟨12, "Mediterranean", 2, 16, 32⟩] 99
        ≠ some [⟨12, "Mediterranean", 2, 16, 32⟩] ∧
      decreaseItemQuantity [⟨12, "Mediterranean", 2, 16, 32⟩] 99
        ≠ some [⟨12, "Mediterranean", 2, 16, 32⟩]) :=
  ⟨(quantity_ops_require_presence [⟨12, "Mediterranean", 2, 16, 32⟩] 12).1
      ⟨⟨12, "Mediterranean", 2, 16, 32⟩, by decide, by decide⟩,
   (quantity_ops_require_presence [⟨12, "Mediterranean", 2, 16, 32⟩] 99).2
      (by decide)⟩

/-- C10: on a cart with unique `pizzaId`s, `increaseItemQuantity` (always)
and `decreaseItemQuantity` (when the item's quantity is at least 2, so no
auto-removal applies) modify only the `quantity` and `totalPrice` fields of
the matching item: its `pizzaId`, `name` and `unitPrice`, every other item,
the cart's length and the relative order of items are all unchanged. -/
theorem quantity_ops_frame :
    ∀ (cart : List CartItem) (pizzaId : Nat) (item : CartItem),
      (cart.map CartItem.pizzaId).Nodup → item ∈ cart → item.pizzaId = pizzaId →
      ∃ k : Fin cart.length, cart.get k = item ∧
        (∃ cart', increaseItemQuantity cart pizzaId = some cart' ∧
          cart'.length = cart.length ∧
          (∀ m : Fin cart.length, m.val ≠ k.val →
            ∀ hm : m.val < cart'.length, cart'.get ⟨m.val, hm⟩ = cart.get m) ∧
          ∀ hk : k.val < cart'.length,
            (cart'.get ⟨k.val, hk⟩).pizzaId = item.pizzaId ∧
            (cart'.get ⟨k.val, hk⟩).name = item.name ∧
            (cart'.get ⟨k.val, hk⟩).unitPrice = item.unitPrice ∧
            (cart'.get ⟨k.val, hk⟩).quantity = item.quantity + 1 ∧
            (cart'.get ⟨k.val, hk⟩).totalPrice = (item.quantity + 1) * item.unitPrice) ∧
        (2 ≤ item.quantity →
          ∃ cart', decreaseItemQuantity cart pizzaId = some cart' ∧
          cart'.length = cart.length ∧
          (∀ m : Fin cart.length, m.val ≠ k.val →
            ∀ hm : m.val < cart'.length, cart'.get ⟨m.val, hm⟩ = cart.get m) ∧
          ∀ hk : k.val < cart'.length,
            (cart'.get ⟨k.val, hk⟩).pizzaId = item.pizzaId ∧
            (cart'.get ⟨k.val, hk⟩).name = item.name ∧
            (cart'.get ⟨k.val, hk⟩).unitPrice = item.unitPrice ∧
            (cart'.get ⟨k.val, hk⟩).quantity = item.quantity - 1 ∧
            (cart'.get ⟨k.val, hk⟩).totalPrice = (item.quantity - 1) * item.unitPrice) := by
  intro cart pizzaId item hnodup hmem hpid
  have hfind := find?_eq_of_nodup hnodup hmem hpid
  obtain ⟨k, hget, _, hsetf⟩ := updateFirstItem_eq_set hfind
  refine ⟨k, hget, ?_, ?_⟩
  · refine ⟨cart.set k.val (bumpUp item), ?_, by simp, ?_, ?_⟩
    · unfold increaseItemQuantity
      rw [hfind, hsetf bumpUp]
    · intro m hne hm
      simp [List.get_eq_getElem, List.getElem_set_ne (fun h => hne h.symm)]
    · intro hk
      simp only [List.get_eq_getElem, List.getElem_set_self]
      exact ⟨rfl, rfl, rfl, rfl, rfl⟩
  · intro hq
    refine ⟨cart.set k.val (bumpDown item), ?_, by simp, ?_, ?_⟩
    · unfold decreaseItemQuantity
      rw [hfind, hsetf bumpDown]
      have : ¬(item.quantity - 1 = 0) := by omega
      simp [this]
    · intro m hne hm
      simp [List.get_eq_getElem, List.getElem_set_ne (fun h => hne h.symm)]
    · intro hk
      simp only [List.get_eq_getElem, List.getElem_set_self]
      exact ⟨rfl, rfl, rfl, rfl, rfl⟩

/-- Witness for C10 at a concrete two-item cart. -/
theorem quantity_ops_frame_witness :
    ∃ k : Fin twoItemCart.length,
      twoItemCart.get k = ⟨12, "Mediterranean", 2, 16, 32⟩ ∧
      (∃ cart', increaseItemQuantity twoItemCart 12 = some cart' ∧
        cart'.length = twoItemCart.length ∧
        (∀ m : Fin twoItemCart.length, m.val ≠ k.val →
          ∀ hm : m.val < cart'.length, cart'.get ⟨m.val, hm⟩ = twoItemCart.get m) ∧
        ∀ hk : k.val < cart'.length,
          (cart'.get ⟨k.val, hk⟩).pizzaId = (12 : Nat) ∧
          (cart'.get ⟨k.val, hk⟩).name = "Mediterranean" ∧
          (cart'.get ⟨k.val, hk⟩).unitPrice = (16 : Int) ∧
          (cart'.get ⟨k.val, hk⟩).quantity = (2 : Int) + 1 ∧
          (cart'.get ⟨k.val, hk⟩).totalPrice = ((2 : Int) + 1) * 16) ∧
      ((2 : Int) ≤ 2 →
        ∃ cart', decreaseItemQuantity twoItemCart 12 = some cart' ∧
        cart'.length = twoItemCart.length ∧
        (∀ m : Fin twoItemCart.length, m.val ≠ k.val →
          ∀ hm : m.val < cart'.length, cart'.get ⟨m.val, hm⟩ = twoItemCart.get m) ∧
        ∀ hk : k.val < cart'.length,
          (cart'.get ⟨k.val, hk⟩).pizzaId = (12 : Nat) ∧
          (cart'.get ⟨k.val, hk⟩).name = "Mediterranean" ∧
          (cart'.get ⟨k.val, hk⟩).unitPrice = (16 : Int) ∧
          (cart'.get ⟨k.val, hk⟩).quantity = (2 : Int) - 1 ∧
          (cart'.get ⟨k.val, hk⟩).totalPrice = ((2 : Int) - 1) * 16) :=
  quantity_ops_frame twoItemCart 12
    ⟨12, "Mediterranean", 2, 16, 32⟩ (by decide) (by decide) (by decide)

theorem digitChar_toNat {d : Nat} (hd : d < 10) : (digitChar d).toNat = 48 + d := by
  interval_cases d <;> decide

theorem digitChar_isDigit {d : Nat} (hd : d < 10) : (digitChar d).isDigit = true := by
  interval_cases d <;> decide

theorem natToCharsAux_all_digits :
    ∀ (fuel n : Nat), n < fuel → ∀ c ∈ natToCharsAux fuel n, c.isDigit = true := by
  intro fuel
  induction fuel with
  | zero => intro n hn; omega
  | succ f ih =>
    intro n hn c hc
    by_cases h : n < 10
    · rw [natToCharsAux, if_pos h] at hc
      simp only [List.mem_singleton] at hc
      exact hc ▸ digitChar_isDigit h
    · rw [natToCharsAux, if_neg h] at hc
      rcases List.mem_append.mp hc with hc | hc
      · exact ih (n / 10) (by omega) c hc
      · simp only [List.mem_singleton] at hc
        exact hc ▸ digitChar_isDigit (Nat.mod_lt _ (by omega))

theorem natToChars_all_digits (n : Nat) : ∀ c ∈ natToChars n, c.isDigit = true :=
  natToCharsAux_all_digits (n + 1) n (by omega)

theorem natToChars_ne_nil (n : Nat) : natToChars n ≠ [] := by
  rw [natToChars, natToCharsAux]
  split
  · simp
  · simp

theorem parseDigits_append {ds : List Char} (hds : ∀ c ∈ ds, c.isDigit = true) :
    ∀ (acc : Nat) {rest : List Char}, noDigitHead rest →
      parseDigits acc (ds ++ rest) =
        (ds.foldl (fun a c => a * 10 + (c.toNat - 48)) acc, rest) := by
  induction ds with
  | nil =>
    intro acc rest hrest
    cases rest with
    | nil => rfl
    | cons r rs =>
      simp only [List.nil_append, List.foldl_nil]
      rw [parseDigits, if_neg]
      simp [noDigitHead] at hrest
      simp [hrest]
  | cons d ds ih =>
    intro acc rest hrest
    have hd : d.isDigit = true := hds d (List.mem_cons_self _ _)
    simp only [List.cons_append, List.foldl_cons]
    rw [parseDigits, if_pos hd]
    exact ih (fun c hc => hds c (List.mem_cons_of_mem _ hc)) _ hrest

theorem foldl_natToCharsAux :
    ∀ (fuel n : Nat), n < fuel → ∀ acc : Nat,
      (natToCharsAux fuel n).foldl (fun a c => a * 10 + (c.toNat - 48)) acc =
        acc * 10 ^ (natToCharsAux fuel n).length + n := by
  intro fuel
  induction fuel with
  | zero => intro n hn; omega
  | succ f ih =>
    intro n hn acc
    by_cases h : n < 10
    · rw [natToCharsAux, if_pos h]
      simp [digitChar_toNat h]
    · rw [natToCharsAux, if_neg h]
      rw [List.foldl_append, ih (n / 10) (by omega) acc]
      have hm : n % 10 < 10 := Nat.mod_lt _ (by omega)
      simp only [List.foldl_cons, List.foldl_nil, List.length_append,
        List.length_singleton, digitChar_toNat hm]
      rw [pow_succ, ← mul_assoc]
      omega

theorem foldl_natToChars (n : Nat) :
    ∀ acc : Nat,
      (natToChars n).foldl (fun a c => a * 10 + (c.toNat - 48)) acc =
        acc * 10 ^ (natToChars n).length + n :=
  foldl_natToCharsAux (n + 1) n (by omega)

theorem parseNat_serialize (n : Nat) {rest : List Char} (hrest : noDigitHead rest) :
    parseNat (natToChars n ++ rest) = some (n, rest) := by
  cases hds : natToChars n with
  | nil => exact absurd hds (natToChars_ne_nil n)
  | cons c cs =>
    have hc : c.isDigit = true :=
      natToChars_all_digits n c (hds ▸ List.mem_cons_self _ _)
    rw [List.cons_append, parseNat, if_pos hc, ← List.cons_append, ← hds]
    rw [parseDigits_append (natToChars_all_digits n) 0 hrest, foldl_natToChars]
    simp

theorem isDigit_ne_dash {c : Char} (h : c.isDigit = true) : ¬(c = '-') := by
  intro heq
  rw [heq] at h
  exact absurd h (by decide)

theorem parseInt_serialize (i : Int) {rest : List Char} (hrest : noDigitHead rest) :
    parseInt (intToChars i ++ rest) = some (i, rest) := by
  by_cases hneg : i < 0
  · rw [intToChars, if_pos hneg, List.cons_append, parseInt, if_pos rfl,
      parseNat_serialize i.natAbs hrest]
    simp only [Option.map_some']
    congr 1
    refine Prod.ext ?_ rfl
    show -(i.natAbs : Int) = i
    omega
  · rw [intToChars, if_neg hneg]
    cases hds : natToChars i.natAbs with
    | nil => exact absurd hds (natToChars_ne_nil _)
    | cons c cs =>
      have hc : c.isDigit = true :=
        natToChars_all_digits i.natAbs c (hds ▸ List.mem_cons_self _ _)
      rw [List.cons_append, parseInt, if_neg (isDigit_ne_dash hc),
        ← List.cons_append, ← hds, parseNat_serialize i.natAbs hrest]
      simp only [Option.map_some']
      congr 1
      refine Prod.ext ?_ rfl
      show ((i.natAbs : Nat) : Int) = i
      omega

theorem hexVal_hexDigitChar {d : Nat} (hd : d < 16) :
    hexVal (hexDigitChar d) = some d := by
  interval_cases d <;> decide

theorem parseStringBodyAux_cons_esc {f : Nat} {tail0 tail : List Char} {c : Char}
    (hesc : parseEsc tail0 = some (c, tail)) :
    parseStringBodyAux (f + 1) ('\\' :: tail0) =
      (parseStringBodyAux f tail).map (fun q => (c :: q.1, q.2)) := by
  rw [parseStringBodyAux, if_neg (by decide), if_pos rfl, hesc]

theorem parseStringBodyAux_cons_plain {f : Nat} {tail : List Char} {c : Char}
    (h1 : ¬(c = '"')) (h2 : ¬(c = '\\')) :
    parseStringBodyAux (f + 1) (c :: tail) =
      (parseStringBodyAux f tail).map (fun q => (c :: q.1, q.2)) := by
  rw [parseStringBodyAux, if_neg h1, if_neg h2]

theorem parseEsc_named {e ec : Char} {cs : List Char}
    (hu : ¬(e = 'u')) (hval : escCharValue e = some ec) :
    parseEsc (e :: cs) = some (ec, cs) := by
  rw [parseEsc, if_neg hu, hval]
  rfl

theorem parseEsc_hex {t : Nat} (ht : t < 32) (cs : List Char) :
    parseEsc ('u' :: '0' :: '0' :: hexDigitChar (t / 16) :: hexDigitChar (t % 16) :: cs) =
      some (Char.ofNat t, cs) := by
  have h1 : t / 16 < 16 := by omega
  have h2 : t % 16 < 16 := by omega
  rw [parseEsc, if_pos rfl]
  have hh : parseHex4 ('0' :: '0' :: hexDigitChar (t / 16) :: hexDigitChar (t % 16) :: cs)
      = some (t, cs) := by
    rw [parseHex4, show hexVal '0' = some 0 from rfl,
      hexVal_hexDigitChar h1, hexVal_hexDigitChar h2]
    show some (((0 * 16 + 0) * 16 + t / 16) * 16 + t % 16, cs) = some (t, cs)
    have hn : ((0 * 16 + 0) * 16 + t / 16) * 16 + t % 16 = t := by omega
    rw [hn]
  rw [hh]
  show (if (t : Nat).isValidChar then some (Char.ofNat t, cs) else none)
    = some (Char.ofNat t, cs)
  rw [if_pos (Or.inl (by omega))]

theorem parseStringBodyAux_escape (l : List Char) :
    ∀ {fuel : Nat} {rest : List Char}, l.length < fuel →
      parseStringBodyAux fuel (l.flatMap escapeChar ++ '"' :: rest) =
        some (l, rest) := by
  induction l with
  | nil =>
    intro fuel rest hfuel
    cases fuel with
    | zero => omega
    | succ f =>
      simp only [List.flatMap_nil, List.nil_append]
      rw [parseStringBodyAux, if_pos rfl]
  | cons c l ih =>
    intro fuel rest hfuel
    cases fuel with
    | zero => omega
    | succ f =>
      have hlen : l.length < f := by
        simp only [List.length_cons] at hfuel
        omega
      simp only [List.flatMap_cons, List.append_assoc]
      by_cases h1 : c = '"'
      · subst h1
        rw [show escapeChar '"' = ['\\', '"'] from rfl]
        simp only [List.cons_append, List.nil_append]
        rw [parseStringBodyAux_cons_esc (@parseEsc_named '"' '"' _ (by decide) rfl), ih hlen]
        rfl
      · by_cases h2 : c = '\\'
        · subst h2
          rw [show escapeChar '\\' = ['\\', '\\'] from rfl]
          simp only [List.cons_append, List.nil_append]
          rw [parseStringBodyAux_cons_esc (@parseEsc_named '\\' '\\' _ (by decide) rfl), ih hlen]
          rfl
        · by_cases h3 : c.toNat = 8
          · have hc : c = Char.ofNat 8 := by rw [← Char.ofNat_toNat c, h3]
            subst hc
            rw [show escapeChar (Char.ofNat 8) = ['\\', 'b'] from rfl]
            simp only [List.cons_append, List.nil_append]
            rw [parseStringBodyAux_cons_esc (@parseEsc_named 'b' (Char.ofNat 8) _ (by decide) rfl), ih hlen]
            rfl
          · by_cases h4 : c.toNat = 9
            · have hc : c = Char.ofNat 9 := by rw [← Char.ofNat_toNat c, h4]
              subst hc
              rw [show escapeChar (Char.ofNat 9) = ['\\', 't'] from rfl]
              simp only [List.cons_append, List.nil_append]
              rw [parseStringBodyAux_cons_esc (@parseEsc_named 't' (Char.ofNat 9) _ (by decide) rfl), ih hlen]
              rfl
            · by_cases h5 : c.toNat = 10
              · have hc : c = Char.ofNat 10 := by rw [← Char.ofNat_toNat c, h5]
                subst hc
                rw [show escapeChar (Char.ofNat 10) = ['\\', 'n'] from rfl]
                simp only [List.cons_append, List.nil_append]
                rw [parseStringBodyAux_cons_esc (@parseEsc_named 'n' (Char.ofNat 10) _ (by decide) rfl), ih hlen]
                rfl
              · by_cases h6 : c.toNat = 12
                · have hc : c = Char.ofNat 12 := by rw [← Char.ofNat_toNat c, h6]
                  subst hc
                  rw [show escapeChar (Char.ofNat 12) = ['\\', 'f'] from rfl]
                  simp only [List.cons_append, List.nil_append]
                  rw [parseStringBodyAux_cons_esc (@parseEsc_named 'f' (Char.ofNat 12) _ (by decide) rfl), ih hlen]
                  rfl
                · by_cases h7 : c.toNat = 13
                  · have hc : c = Char.ofNat 13 := by rw [← Char.ofNat_toNat c, h7]
                    subst hc
                    rw [show escapeChar (Char.ofNat 13) = ['\\', 'r'] from rfl]
                    simp only [List.cons_append, List.nil_append]
                    rw [parseStringBodyAux_cons_esc (@parseEsc_named 'r' (Char.ofNat 13) _ (by decide) rfl), ih hlen]
                    rfl
                  · by_cases h8 : c.toNat < 32
                    · rw [escapeChar, if_neg h1, if_neg h2, if_neg h3, if_neg h4,
                        if_neg h5, if_neg h6, if_neg h7, if_pos h8]
                      simp only [List.cons_append, List.nil_append]
                      rw [parseStringBodyAux_cons_esc (parseEsc_hex h8 _), ih hlen]
                      simp [Char.ofNat_toNat]
                    · rw [escapeChar, if_neg h1, if_neg h2, if_neg h3, if_neg h4,
                        if_neg h5, if_neg h6, if_neg h7, if_neg h8]
                      simp only [List.cons_append, List.nil_append]
                      rw [parseStringBodyAux_cons_plain h1 h2, ih hlen]
                      rfl

theorem expectChar_eq (c : Char) (cs : List Char) : expectChar c (c :: cs) = some cs := by
  simp [expectChar]

theorem escapeChar_length_pos (c : Char) : 1 ≤ (escapeChar c).length := by
  unfold escapeChar
  split_ifs <;> simp

theorem length_le_flatMap_escape (l : List Char) :
    l.length ≤ (l.flatMap escapeChar).length := by
  induction l with
  | nil => simp
  | cons c l ih =>
    simp only [List.flatMap_cons, List.length_append, List.length_cons]
    have := escapeChar_length_pos c
    omega

theorem parseJString_serialize (s : String) (rest : List Char) :
    parseJString (stringToChars s ++ rest) = some (s, rest) := by
  unfold stringToChars
  simp only [List.cons_append, List.append_assoc, List.nil_append]
  rw [parseJString, if_pos rfl]
  have hfuel : s.data.length < (s.data.flatMap escapeChar ++ '"' :: rest).length := by
    simp only [List.length_append, List.length_cons]
    have := length_le_flatMap_escape s.data
    omega
  rw [parseStringBodyAux_escape s.data hfuel]
  rfl

theorem parseKeyColon_serialize (key : String) (rest : List Char) :
    parseKeyColon key (stringToChars key ++ ':' :: rest) = some rest := by
  unfold parseKeyColon
  rw [parseJString_serialize key (':' :: rest)]
  simp [expectChar]

theorem parseNatField_serialize (key : String) (n : Nat) {rest : List Char}
    (hrest : noDigitHead rest) :
    parseNatField key (stringToChars key ++ ':' :: (natToChars n ++ rest)) =
      some (n, rest) := by
  unfold parseNatField
  rw [parseKeyColon_serialize key (natToChars n ++ rest)]
  exact parseNat_serialize n hrest

theorem parseIntField_serialize (key : String) (i : Int) {rest : List Char}
    (hrest : noDigitHead rest) :
    parseIntField key (stringToChars key ++ ':' :: (intToChars i ++ rest)) =
      some (i, rest) := by
  unfold parseIntField
  rw [parseKeyColon_serialize key (intToChars i ++ rest)]
  exact parseInt_serialize i hrest

theorem parseStringField_serialize (key : String) (s : String) (rest : List Char) :
    parseStringField key (stringToChars key ++ ':' :: (stringToChars s ++ rest)) =
      some (s, rest) := by
  unfold parseStringField
  rw [parseKeyColon_serialize key (stringToChars s ++ rest)]
  exact parseJString_serialize s rest

theorem noDigitHead_of (c : Char) (h : c.isDigit = false) (cs : List Char) :
    noDigitHead (c :: cs) := h

theorem parseItemHead_serialize (pid : Nat) (nm : String) (rest : List Char) :
    parseItemHead ('{' :: (stringToChars "pizzaId" ++
        ':' :: (natToChars pid ++
        ',' :: (stringToChars "name" ++
        ':' :: (stringToChars nm ++ rest))))) = some ((pid, nm), rest) := by
  unfold parseItemHead
  rw [expectChar_eq]
  simp only [Option.some_bind]
  rw [parseNatField_serialize "pizzaId" pid (noDigitHead_of ',' (by decide) _)]
  simp only [Option.some_bind]
  rw [expectChar_eq]
  simp only [Option.some_bind]
  rw [parseStringField_serialize "name" nm rest]
  simp only [Option.map_some']

theorem parseItemTail_serialize (q up tp : Int) (rest : List Char) :
    parseItemTail (',' :: (stringToChars "quantity" ++
        ':' :: (intToChars q ++
        ',' :: (stringToChars "unitPrice" ++
        ':' :: (intToChars up ++
        ',' :: (stringToChars "totalPrice" ++
        ':' :: (intToChars tp ++
        '}' :: rest))))))) = some ((q, up, tp), rest) := by
  unfold parseItemTail
  rw [expectChar_eq]
  simp only [Option.some_bind]
  rw [parseIntField_serialize "quantity" q (noDigitHead_of ',' (by decide) _)]
  simp only [Option.some_bind]
  rw [expectChar_eq]
  simp only [Option.some_bind]
  rw [parseIntField_serialize "unitPrice" up (noDigitHead_of ',' (by decide) _)]
  simp only [Option.some_bind]
  rw [expectChar_eq]
  simp only [Option.some_bind]
  rw [parseIntField_serialize "totalPrice" tp (noDigitHead_of '}' (by decide) _)]
  simp only [Option.some_bind]
  rw [expectChar_eq]
  simp only [Option.map_some']

theorem parseItem_serialize (item : CartItem) (rest : List Char) :
    parseItem (serializeItemChars item ++ rest) = some (item, rest) := by
  unfold serializeItemChars
  simp only [List.cons_append, List.append_assoc, List.nil_append]
  unfold parseItem
  rw [parseItemHead_serialize item.pizzaId item.name]
  simp only [Option.some_bind]
  rw [parseItemTail_serialize item.quantity item.unitPrice item.totalPrice rest]
  simp only [Option.map_some']

theorem serializeItemChars_head (item : CartItem) :
    ∃ tail, serializeItemChars item = '{' :: tail := ⟨_, rfl⟩

theorem serializeItemsChars_cons_head (item : CartItem) (rest : List CartItem) :
    ∃ tail, serializeItemsChars (item :: rest) = '{' :: tail := by
  cases rest with
  | nil => exact serializeItemChars_head item
  | cons j js =>
    obtain ⟨tail, htail⟩ := serializeItemChars_head item
    rw [show serializeItemsChars (item :: j :: js)
        = serializeItemChars item ++ ',' :: serializeItemsChars (j :: js) from rfl, htail]
    exact ⟨_, rfl⟩

theorem length_le_serializeItemsChars (cart : List CartItem) :
    cart.length ≤ (serializeItemsChars cart).length := by
  induction cart with
  | nil => simp [serializeItemsChars]
  | cons item rest ih =>
    obtain ⟨tail, htail⟩ := serializeItemChars_head item
    cases rest with
    | nil => simp [serializeItemsChars, htail]
    | cons j js =>
      rw [show serializeItemsChars (item :: j :: js)
          = serializeItemChars item ++ ',' :: serializeItemsChars (j :: js) from rfl,
        htail]
      simp only [List.length_cons, List.cons_append, List.length_append,
        List.length_cons]
      have := ih
      simp only [List.length_cons] at this
      omega

theorem parseItemsAux_serialize :
    ∀ (cart : List CartItem), cart ≠ [] →
      ∀ {fuel : Nat}, cart.length ≤ fuel →
        parseItemsAux fuel (serializeItemsChars cart ++ [']']) =
          some (cart, [']']) := by
  intro cart
  induction cart with
  | nil => intro h; exact absurd rfl h
  | cons item rest ih =>
    intro _ fuel hfuel
    cases fuel with
    | zero => simp at hfuel
    | succ f =>
      cases rest with
      | nil =>
        rw [show serializeItemsChars [item] = serializeItemChars item from rfl]
        rw [parseItemsAux]
        rw [parseItem_serialize item [']']]
        simp only [Option.some_bind]
        simp
      | cons j js =>
        rw [show serializeItemsChars (item :: j :: js)
            = serializeItemChars item ++ ',' :: serializeItemsChars (j :: js) from rfl]
        simp only [List.append_assoc, List.cons_append]
        rw [parseItemsAux]
        rw [parseItem_serialize item (',' :: (serializeItemsChars (j :: js) ++ [']']))]
        simp only [Option.some_bind]
        have hlen : (j :: js).length ≤ f := by
          simp only [List.length_cons] at hfuel ⊢
          omega
        first
        | rw [if_pos rfl]
        | simp only [if_true]
        rw [ih (by simp) hlen]
        rfl

/-- Round trip of the full cart payload: parsing the serialized hidden-field
value recovers the cart exactly. -/
theorem parseCart_serializeCart (cart : List CartItem) :
    parseCart (serializeCart cart) = some cart := by
  cases cart with
  | nil => rfl
  | cons item rest =>
    obtain ⟨tail, htail⟩ := serializeItemsChars_cons_head item rest
    have htail' : serializeItemsChars (item :: rest) ++ [']'] = '{' :: (tail ++ [']']) := by
      rw [htail]
      simp only [List.cons_append]
    have hlen : (item :: rest).length ≤ (serializeItemsChars (item :: rest) ++ [']']).length := by
      have h1 := length_le_serializeItemsChars (item :: rest)
      simp only [List.length_append, List.length_singleton]
      omega
    unfold serializeCart parseCart
    simp only [List.cons_append]
    rw [htail']
    show (if ('[' : Char) = '[' then
        if ('{' : Char) = ']' then (if tail ++ [']'] = [] then some [] else none)
        else (parseItemsAux ('{' :: (tail ++ [']'])).length ('{' :: (tail ++ [']']))).bind
          fun p => if p.2 = [']'] then some p.1 else none
      else none) = some (item :: rest)
    rw [if_pos rfl, if_neg (by decide), ← htail']
    rw [parseItemsAux_serialize (item :: rest) (by simp) hlen]
    simp only [Option.some_bind]
    first
    | rw [if_pos rfl]
    | simp only [if_true]

theorem createOrderAction_invalid (data : FormData) (resp : FetchOutcome)
    (items : List CartItem) (hparse : parseCart data.cart = some items)
    (hphone : isValidPhone data.phone = false) :
    createOrderAction resp data =
      some (.validationErrors [("phone", phoneErrorMessage)]) := by
  unfold createOrderAction
  rw [hparse]
  show (if isValidPhone (assembleOrder data items).phone then
      match createOrder resp (assembleOrder data items) with
      | Except.ok newOrder => some (ActionResult.redirect ("/order/" ++ newOrder.id))
      | Except.error e => some (ActionResult.apiError e)
    else some (ActionResult.validationErrors [("phone", phoneErrorMessage)]))
    = some (ActionResult.validationErrors [("phone", phoneErrorMessage)])
  rw [if_neg]
  rw [show isValidPhone (assembleOrder data items).phone
      = isValidPhone data.phone from rfl, hphone]
  simp

theorem createOrderAction_valid (data : FormData) (resp : FetchOutcome)
    (items : List CartItem) (hparse : parseCart data.cart = some items)
    (hphone : isValidPhone data.phone = true) :
    createOrderAction resp data =
      some (match createOrder resp (assembleOrder data items) with
        | Except.ok newOrder => ActionResult.redirect ("/order/" ++ newOrder.id)
        | Except.error e => ActionResult.apiError e) := by
  unfold createOrderAction
  rw [hparse]
  show (if isValidPhone (assembleOrder data items).phone then
      match createOrder resp (assembleOrder data items) with
      | Except.ok newOrder => some (ActionResult.redirect ("/order/" ++ newOrder.id))
      | Except.error e => some (ActionResult.apiError e)
    else some (ActionResult.validationErrors [("phone", phoneErrorMessage)]))
    = some (match createOrder resp (assembleOrder data items) with
        | Except.ok newOrder => ActionResult.redirect ("/order/" ++ newOrder.id)
        | Except.error e => ActionResult.apiError e)
  rw [if_pos (by rw [show isValidPhone (assembleOrder data items).phone
      = isValidPhone data.phone from rfl, hphone])]
  cases createOrder resp (assembleOrder data items) with
  | ok newOrder => rfl
  | error e => rfl

/-- C6: serializing any cart (any finite sequence of `CartItem`s) to the
submission format — the JSON string placed in the hidden `cart` form field —
and parsing it back in the submission pipeline yields an equal sequence of
`CartItem`s: the same `pizzaId`, `quantity`, `unitPrice` and `totalPrice`
values (and even the same `name`s) in the same order. -/
theorem roundtrip_serialization (cart : List CartItem) :
    parseCart (serializeCart cart) = some cart :=
  parseCart_serializeCart cart

/-- C3: the phone `"123"` fails the pattern while `"+1-555-123-4567"`
passes; for every submission whose cart field parses, an invalid phone
makes `createOrderAction` return the `{ phone: … }` field-error map — the
same result whatever the API environment would answer, so the external
order-creation call is never consulted — while a valid phone yields no
phone error and the pipeline proceeds to the API call, its result
determined by `createOrder`'s outcome. -/
theorem phone_validation_gate :
    isValidPhone "123" = false ∧
    isValidPhone "+1-555-123-4567" = true ∧
    ∀ (data : FormData) (resp : FetchOutcome) (items : List CartItem),
      parseCart data.cart = some items →
      (isValidPhone data.phone = false →
        createOrderAction resp data =
          some (.validationErrors [("phone", phoneErrorMessage)]) ∧
        ∀ resp2, createOrderAction resp2 data = createOrderAction resp data) ∧
      (isValidPhone data.phone = true →
        createOrderAction resp data =
          some (match createOrder resp (assembleOrder data items) with
            | Except.ok newOrder => ActionResult.redirect ("/order/" ++ newOrder.id)
            | Except.error e => ActionResult.apiError e)) := by
  refine ⟨rfl, rfl, ?_⟩
  intro data resp items hparse
  constructor
  · intro hinv
    refine ⟨createOrderAction_invalid data resp items hparse hinv, fun resp2 => ?_⟩
    rw [createOrderAction_invalid data resp items hparse hinv,
      createOrderAction_invalid data resp2 items hparse hinv]
  · intro hvalid
    exact createOrderAction_valid data resp items hparse hvalid

/-- Witness for C3 at concrete inputs: the submission with phone `"123"`
returns the phone field error; with phone `"+1-555-123-4567"` it reaches
the API and redirects to the new order. -/
theorem phone_validation_gate_witness :
    createOrderAction (.ok ord1) (witnessForm "123") =
      some (.validationErrors [("phone", phoneErrorMessage)]) ∧
    createOrderAction (.ok ord1) (witnessForm "+1-555-123-4567") =
      some (.redirect ("/order/" ++ ord1.id)) :=
  ⟨((phone_validation_gate.2.2 (witnessForm "123") (.ok ord1) fakeCart
      (parseCart_serializeCart fakeCart)).1 rfl).1,
   (phone_validation_gate.2.2 (witnessForm "+1-555-123-4567") (.ok ord1) fakeCart
      (parseCart_serializeCart fakeCart)).2 rfl⟩

/-- C7: when a submission reaches the API call, any failure — non-success
HTTP status or a rejected fetch — surfaces as exactly the one generic
thrown message `"Failed creating your order"` (an `apiError`, never a
field-name-to-message map, hence distinguishable from validation errors),
while success produces the navigation target `/order/{id}` with the
server-assigned id. -/
theorem api_failure_single_generic_error :
    ∀ (data : FormData) (items : List CartItem),
      parseCart data.cart = some items →
      isValidPhone data.phone = true →
      (∀ status, createOrderAction (.httpError status) data =
        some (.apiError "Failed creating your order")) ∧
      (createOrderAction .networkFailure data =
        some (.apiError "Failed creating your order")) ∧
      (∀ newOrder, createOrderAction (.ok newOrder) data =
        some (.redirect ("/order/" ++ newOrder.id))) ∧
      (∀ (resp : FetchOutcome) (errors : List (String × String)),
        createOrderAction resp data ≠ some (.validationErrors errors)) := by
  intro data items hparse hvalid
  refine ⟨fun status => ?_, ?_, fun newOrder => ?_, fun resp errors => ?_⟩
  · rw [createOrderAction_valid data (.httpError status) items hparse hvalid]
    rfl
  · rw [createOrderAction_valid data .networkFailure items hparse hvalid]
    rfl
  · rw [createOrderAction_valid data (.ok newOrder) items hparse hvalid]
    rfl
  · rw [createOrderAction_valid data resp items hparse hvalid]
    cases createOrder resp (assembleOrder data items) with
    | ok newOrder => simp
    | error e => simp

/-- Witness for C7 at concrete inputs: the valid submission against a
failing API yields the generic error; against a succeeding API it
redirects. -/
theorem api_failure_single_generic_error_witness :
    createOrderAction (.httpError 500) (witnessForm "+15551234567") =
      some (.apiError "Failed creating your order") ∧
    createOrderAction (.ok ord1) (witnessForm "+15551234567") =
      some (.redirect ("/order/" ++ ord1.id)) := by
  obtain ⟨h1, _, h3, _⟩ :=
    api_failure_single_generic_error (witnessForm "+15551234567") fakeCart
      (parseCart_serializeCart fakeCart) rfl
  exact ⟨h1 500, h3 ord1⟩

/-- C8: `getOrder` either returns the fetched order record, or, when the
API answers a non-success status (such as HTTP 404 for an unknown id),
throws the not-found error whose message names the missing order id —
an error distinct from the one a generic network failure produces (the
propagated fetch rejection). -/
theorem getOrder_not_found_distinguishable :
    ∀ (id : String) (rec : OrderRecord) (status : Nat),
      getOrder (.ok rec) id = .ok rec ∧
      getOrder (.httpError status) id =
        .error (.message ("Couldn't find order #" ++ id)) ∧
      getOrder .networkFailure id = .error .fetchFailure ∧
      JsError.message ("Couldn't find order #" ++ id) ≠ JsError.fetchFailure :=
  fun _ _ _ => ⟨rfl, rfl, rfl, by simp⟩

/-- C4: the hidden `cart` field submitted by `CreateOrder` carries the
hardcoded `fakeCart`, whatever the store's cart is: with an empty store
cart the submitted payload still parses back to the three fake items, so
the order payload's cart is a fixed value, not the store snapshot. -/
theorem hidden_cart_field_ignores_store :
    (∀ storeCart : List CartItem,
      createOrderHiddenCartField storeCart = serializeCart fakeCart) ∧
    parseCart (createOrderHiddenCartField []) = some fakeCart ∧
    fakeCart ≠ ([] : List CartItem) :=
  ⟨fun _ => rfl, parseCart_serializeCart fakeCart, by decide⟩

/-- C5 counterexample: a fully successful submission — the valid phone
passes the guard and the API answers `ORD-1`, so the action returns the
redirect — leaves the store's nonempty cart exactly as it was: the cart is
not empty after successful order submission. -/
theorem cart_not_cleared_after_successful_submission :
    createOrderAction (.ok ord1) (witnessForm "+15551234567") =
      some (.redirect ("/order/" ++ ord1.id)) ∧
    cartAfterSubmission fakeCart (.ok ord1) (witnessForm "+15551234567") =
      some fakeCart ∧
    fakeCart ≠ ([] : List CartItem) := by
  refine ⟨?_, rfl, by decide⟩
  rw [createOrderAction_valid (witnessForm "+15551234567") (.ok ord1) fakeCart
    (parseCart_serializeCart fakeCart) rfl]
  rfl

/-- C5 (amended): the submission pipeline never touches the Cart Store —
`createOrderAction` dispatches no cart action, so after any run of the
action (successful or not) the store's cart is unchanged; the cart becomes
empty only through an explicit `clearCart` dispatch, which empties it
unconditionally. -/
theorem submission_leaves_cart_unchanged :
    ∀ (storeCart : List CartItem) (resp : FetchOutcome) (data : FormData),
      cartAfterSubmission storeCart resp data = some storeCart ∧
      cartReducer storeCart CartAction.clearCart = some [] :=
  fun _ _ _ => ⟨rfl, rfl⟩

end Pizza
